import Mathlib

/-!
# Verification of the dinghy action-driven FSM engine

Shallow embedding of the Go state-machine framework (the `StateMachine`
runtime with `getNextState` and `SendEvent`, plus the light-switch example
machine), together with theorems settling the specification claims.

Modelling conventions:
* Go `StateType`/`EventType` are strings; the zero values are `Default = ""`
  for states and the sentinel `NoOp = "NoOp"` for events.
* Go maps (`Events`, `States`) are association lists looked up with
  `List.lookup`; a `nil` transition table is `none` (the source checks
  `state.Events != nil` explicitly).
* The Go `Action` interface (`Execute(eventCtx EventContext) EventType`) is a
  function `Ctx → EventType`; a state's optional bound action is
  `Option (Ctx → EventType)`.
* `SendEvent`'s unbounded `for` loop is given explicit fuel: the outcome
  `outOfFuel` means the Go loop would still be running after that many
  iterations.  Every real call corresponds to fuel `n+1` for all large `n`.
* In the source, when the destination state is absent from `States` or has a
  `nil` action, the `if !ok || state.Action == nil` branch is EMPTY (only the
  comment `// configuration error`), so control falls through: the transition
  is still committed (`s.Previous`/`s.Current` are assigned) and
  `state.Action.Execute` is then invoked on a nil interface, which is a Go
  runtime panic.  The embedding records this as the outcome `nilActionPanic`.
* The result additionally records the list of states whose action was
  executed (`invoked`, in order) and the list of committed transitions
  (`committed`, the `(Previous, Current)` pair written at lines 122-123 of the
  source, recorded before the destination's action runs).
* The `sync.Mutex` field and the printing done by the example actions are not
  modelled; the lock has no effect on a single sequential call.
-/

namespace Dinghy

/-- `StateType` represents an extensible state type in the state machine. -/
abbrev StateType := String

/-- `EventType` represents an extensible event type in the state machine. -/
abbrev EventType := String

/-- `Default` represents the default state of the system (Go zero value `""`). -/
def Default : StateType := ""

/-- `NoOp` represents a no-op event. -/
def NoOp : EventType := "NoOp"

/-- `State` binds a state with an (optional, possibly nil) action and a
(possibly nil) transition table mapping events to destination states.
`Ctx` is the type of the opaque `EventContext` handed to actions. -/
structure State (Ctx : Type) where
  Action : Option (Ctx → EventType)
  Events : Option (List (EventType × StateType))

/-- `StateMachine` holds the previous and current state and the (immutable)
state collection.  The Go `sync.Mutex` field is not modelled. -/
structure StateMachine (Ctx : Type) where
  Previous : StateType
  Current : StateType
  States : List (StateType × State Ctx)

/-- `getNextState` returns the next state for the event given the machine's
current state, or `eventRejected` (Go `ErrEventRejected`) if the event can't
be handled in the given state: current state absent from the collection, its
transition table nil, or no entry for the event. -/
def StateMachine.getNextState {Ctx : Type} (s : StateMachine Ctx)
    (event : EventType) : Except Unit StateType :=
  match s.States.lookup s.Current with
  | some state =>
    match state.Events with
    | some events =>
      match events.lookup event with
      | some next => .ok next
      | none => .error ()
    | none => .error ()
  | none => .error ()

/-- The action bound to `nextState` as the Go code sees it at line 127:
`state, ok := s.States[nextState]` followed by `state.Action`.  When the
state is absent (`!ok`), `state` is the zero value and `Action` is nil. -/
def stateAction {Ctx : Type} (states : List (StateType × State Ctx))
    (nextState : StateType) : Option (Ctx → EventType) :=
  match states.lookup nextState with
  | some state => state.Action
  | none => none

/-- Lines 122-123 of the source: `s.Previous = s.Current; s.Current = nextState`. -/
def StateMachine.commitTransition {Ctx : Type} (s : StateMachine Ctx)
    (nextState : StateType) : StateMachine Ctx :=
  { s with Previous := s.Current, Current := nextState }

/-- Outcome of a `SendEvent` call. -/
inductive SendOutcome where
  /-- The call returned `nil`: some invoked action returned `NoOp`. -/
  | ok : SendOutcome
  /-- The call returned `ErrEventRejected`. -/
  | rejected : SendOutcome
  /-- Go runtime panic: `Execute` was called on a nil `Action` (destination
  state absent from the collection, or present with a nil action). -/
  | nilActionPanic : SendOutcome
  /-- Fuel exhausted: the unbounded Go loop would still be running. -/
  | outOfFuel : SendOutcome
deriving DecidableEq, Repr

/-- Result of a `SendEvent` call: the outcome, the machine afterwards, the
states whose action was executed (in order), and the committed transitions as
`(Previous, Current)` pairs in the order they were written. -/
structure SendResult (Ctx : Type) where
  outcome : SendOutcome
  machine : StateMachine Ctx
  invoked : List StateType
  committed : List (StateType × StateType)

/-- `SendEvent` sends an event to the state machine: the `for` loop of the
source with explicit fuel.  Each iteration resolves the event via
`getNextState` (rejecting on failure), commits the transition, and invokes the
destination's action — a nil action is a Go panic, reflecting the source's
empty `// configuration error` branch — looping on the returned event unless
it is `NoOp`. -/
def StateMachine.SendEvent {Ctx : Type} :
    Nat → StateMachine Ctx → EventType → Ctx → SendResult Ctx
  | 0, s, _, _ => ⟨.outOfFuel, s, [], []⟩
  | fuel+1, s, event, eventCtx =>
    match s.getNextState event with
    | .error _ => ⟨.rejected, s, [], []⟩
    | .ok nextState =>
      match stateAction s.States nextState with
      | none =>
        ⟨.nilActionPanic, s.commitTransition nextState, [],
          [(s.Current, nextState)]⟩
      | some act =>
        if act eventCtx = NoOp then
          ⟨.ok, s.commitTransition nextState, [nextState],
            [(s.Current, nextState)]⟩
        else
          let r := SendEvent fuel (s.commitTransition nextState)
            (act eventCtx) eventCtx
          ⟨r.outcome, r.machine, nextState :: r.invoked,
            (s.Current, nextState) :: r.committed⟩

/-! ## The light-switch example machine -/

def Off : StateType := "Off"

def On : StateType := "On"

def SwitchOff : EventType := "SwitchOff"

def SwitchOn : EventType := "SwitchOn"

/-- `OffAction.Execute`: prints (not modelled) and returns `NoOp`. -/
def OffActionExecute : Unit → EventType := fun _ => NoOp

/-- `OnAction.Execute`: prints (not modelled) and returns `NoOp`. -/
def OnActionExecute : Unit → EventType := fun _ => NoOp

/-- The light-switch machine of the source: `Default` routes `SwitchOff` to
`Off`; `Off` (action `OffAction`) routes `SwitchOn` to `On`; `On` (action
`OnAction`) routes `SwitchOff` to `Off`.  `Previous`/`Current` start at the Go
zero value `Default`. -/
def newLightSwitchFSM : StateMachine Unit :=
  { Previous := Default
    Current := Default
    States :=
      [ (Default, { Action := none, Events := some [(SwitchOff, Off)] })
      , (Off, { Action := some OffActionExecute
              , Events := some [(SwitchOn, On)] })
      , (On, { Action := some OnActionExecute
             , Events := some [(SwitchOff, Off)] }) ] }

/-! ## One-iteration unfolding lemmas for `SendEvent` -/

/-- With fuel left, a failed resolution returns `ErrEventRejected` at once,
leaving the machine untouched, with no action invoked and no transition. -/
theorem sendEvent_step_rejected {Ctx : Type} {s : StateMachine Ctx}
    {event : EventType} {er : Unit} (fuel : Nat) (eventCtx : Ctx)
    (h : s.getNextState event = .error er) :
    s.SendEvent (fuel + 1) event eventCtx = ⟨.rejected, s, [], []⟩ := by
  simp [StateMachine.SendEvent, h]

/-- With fuel left, a successful resolution to a destination whose action
returns `NoOp` commits exactly one transition, invokes exactly that action,
and succeeds. -/
theorem sendEvent_step_ok {Ctx : Type} {s : StateMachine Ctx}
    {event : EventType} {nextState : StateType} {act : Ctx → EventType}
    (fuel : Nat) (eventCtx : Ctx)
    (h1 : s.getNextState event = .ok nextState)
    (h2 : stateAction s.States nextState = some act)
    (h3 : act eventCtx = NoOp) :
    s.SendEvent (fuel + 1) event eventCtx =
      ⟨.ok, s.commitTransition nextState, [nextState],
        [(s.Current, nextState)]⟩ := by
  simp [StateMachine.SendEvent, h1, h2, h3]

/-- With fuel left, a successful resolution to a destination whose action
returns a non-`NoOp` event commits the transition, invokes the action, and
continues the loop on the returned event without resetting anything. -/
theorem sendEvent_step_cascade {Ctx : Type} {s : StateMachine Ctx}
    {event : EventType} {nextState : StateType} {act : Ctx → EventType}
    (fuel : Nat) (eventCtx : Ctx)
    (h1 : s.getNextState event = .ok nextState)
    (h2 : stateAction s.States nextState = some act)
    (h3 : act eventCtx ≠ NoOp) :
    s.SendEvent (fuel + 1) event eventCtx =
      ⟨((s.commitTransition nextState).SendEvent fuel (act eventCtx) eventCtx).outcome,
        ((s.commitTransition nextState).SendEvent fuel (act eventCtx) eventCtx).machine,
        nextState ::
          ((s.commitTransition nextState).SendEvent fuel (act eventCtx) eventCtx).invoked,
        (s.Current, nextState) ::
          ((s.commitTransition nextState).SendEvent fuel (act eventCtx) eventCtx).committed⟩ := by
  simp [StateMachine.SendEvent, h1, h2, h3]

/-- With fuel left, a successful resolution to a destination with no usable
action (absent from the collection, or nil `Action`) still commits the
transition and then panics calling `Execute` on the nil action — the source's
`// configuration error` branch is empty, so nothing is surfaced before the
panic. -/
theorem sendEvent_step_nilAction {Ctx : Type} {s : StateMachine Ctx}
    {event : EventType} {nextState : StateType}
    (fuel : Nat) (eventCtx : Ctx)
    (h1 : s.getNextState event = .ok nextState)
    (h2 : stateAction s.States nextState = none) :
    s.SendEvent (fuel + 1) event eventCtx =
      ⟨.nilActionPanic, s.commitTransition nextState, [],
        [(s.Current, nextState)]⟩ := by
  simp [StateMachine.SendEvent, h1, h2]

/-! ## Machines used as concrete inputs -/

/-- A machine whose `Default` state routes `"Go"` to `"A"`, where the action
returns `"X"`, an event state `"A"` does not accept: the call cascades once
and is then rejected. -/
def cascadeRejectFSM : StateMachine Unit :=
  { Previous := Default
    Current := Default
    States :=
      [ (Default, { Action := none, Events := some [("Go", "A")] })
      , ("A", { Action := some (fun _ => "X"), Events := some [] }) ] }

/-- A machine whose `Default` state routes `"Go"` to the declared but
action-less state `"Hub"` — the configuration defect of P6. -/
def hubFSM : StateMachine Unit :=
  { Previous := Default
    Current := Default
    States :=
      [ (Default, { Action := none, Events := some [("Go", "Hub")] })
      , ("Hub", { Action := none, Events := some [] }) ] }

/-- A machine whose `Default` state routes `"Go"` to a state `"Ghost"` that
is absent from the state collection. -/
def ghostFSM : StateMachine Unit :=
  { Previous := Default
    Current := Default
    States :=
      [ (Default, { Action := none, Events := some [("Go", "Ghost")] }) ] }

/-! ## Claim theorems -/

/-- C1 (code facts at the failing input): when the destination of a resolved
transition is a declared state with no bound action (`hubFSM`) or a state
absent from the collection (`ghostFSM`), `SendEvent` does NOT fail with a
Configuration error before transitioning: the empty `// configuration error`
branch falls through, the transition is committed (`Current` becomes the
defective destination), and the call then panics invoking the nil action.
No action body runs (`invoked = []`). -/
theorem configuration_defect_panics_after_transition :
    (hubFSM.SendEvent 1 "Go" ()).outcome = .nilActionPanic ∧
    (hubFSM.SendEvent 1 "Go" ()).machine.Current = "Hub" ∧
    (hubFSM.SendEvent 1 "Go" ()).machine.Previous = Default ∧
    (hubFSM.SendEvent 1 "Go" ()).invoked = [] ∧
    (ghostFSM.SendEvent 1 "Go" ()).outcome = .nilActionPanic ∧
    (ghostFSM.SendEvent 1 "Go" ()).machine.Current = "Ghost" ∧
    (ghostFSM.SendEvent 1 "Go" ()).invoked = [] := by
  decide

/-- C2 (counterexample): a `SendEvent` call that is rejected only after a
cascaded transition does NOT leave the machine's state unchanged: on
`cascadeRejectFSM`, submitting `"Go"` returns `ErrEventRejected` after one
committed transition, and `Current` has moved from `Default` to `"A"`. -/
theorem rejected_after_cascade_changes_state :
    (cascadeRejectFSM.SendEvent 2 "Go" ()).outcome = .rejected ∧
    (cascadeRejectFSM.SendEvent 2 "Go" ()).committed = [(Default, "A")] ∧
    (cascadeRejectFSM.SendEvent 2 "Go" ()).machine.Current ≠
      cascadeRejectFSM.Current := by
  decide

/-- C2 (amended): whenever a `SendEvent` call is rejected at the first
resolution step — before any transition has been committed in that call —
the machine is left completely unchanged: same `Current`, same `Previous`,
no action invoked, no transition committed. -/
theorem rejected_first_resolution_leaves_state_unchanged {Ctx : Type}
    (s : StateMachine Ctx) (event : EventType) (er : Unit)
    (h : s.getNextState event = .error er) :
    ∀ (fuel : Nat) (eventCtx : Ctx),
      s.SendEvent (fuel + 1) event eventCtx = ⟨.rejected, s, [], []⟩ :=
  fun fuel eventCtx => sendEvent_step_rejected fuel eventCtx h

/-- Witness for the amended C2: the light-switch machine rejects `SwitchOn`
in its initial state and is left untouched. -/
theorem rejected_first_resolution_leaves_state_unchanged_witness :
    newLightSwitchFSM.SendEvent 1 SwitchOn () =
      ⟨.rejected, newLightSwitchFSM, [], []⟩ :=
  rejected_first_resolution_leaves_state_unchanged newLightSwitchFSM
    SwitchOn () rfl 0 ()

/-- C3: if the machine's current state is absent from the state collection,
or is present but its transition table is nil or has no entry for the event,
then `SendEvent` returns `ErrEventRejected` and no action is invoked. -/
theorem unresolvable_event_rejected_no_action {Ctx : Type}
    (s : StateMachine Ctx) (event : EventType)
    (h : s.States.lookup s.Current = none ∨
      ∃ st, s.States.lookup s.Current = some st ∧
        (st.Events = none ∨
          ∃ evs, st.Events = some evs ∧ evs.lookup event = none)) :
    ∀ (fuel : Nat) (eventCtx : Ctx),
      (s.SendEvent (fuel + 1) event eventCtx).outcome = .rejected ∧
      (s.SendEvent (fuel + 1) event eventCtx).invoked = [] := by
  have hg : s.getNextState event = .error () := by
    unfold StateMachine.getNextState
    rcases h with h | ⟨st, hst, h⟩
    · simp [h]
    · rcases h with h | ⟨evs, hevs, h⟩
      · simp [hst, h]
      · simp [hst, hevs, h]
  intro fuel eventCtx
  rw [sendEvent_step_rejected fuel eventCtx hg]
  exact ⟨rfl, rfl⟩

/-- Witness for C3: the light-switch machine in its default state has no
entry for the event `"Bogus"`, so the call is rejected with no action run. -/
theorem unresolvable_event_rejected_no_action_witness :
    (newLightSwitchFSM.SendEvent 1 "Bogus" ()).outcome = .rejected ∧
    (newLightSwitchFSM.SendEvent 1 "Bogus" ()).invoked = [] :=
  unresolvable_event_rejected_no_action newLightSwitchFSM "Bogus"
    (Or.inr ⟨{ Action := none, Events := some [(SwitchOff, Off)] }, rfl,
      Or.inr ⟨[(SwitchOff, Off)], rfl, rfl⟩⟩) 0 ()

/-- C7: on the light-switch machine, submitting `SwitchOff`, `SwitchOn`,
`SwitchOff` in sequence yields success, success, success, with `Current`
ending at `Off` and `Previous` at `On` after the final call — for every
amount of fuel, since each call terminates after one iteration. -/
theorem lightSwitch_alternation (f1 f2 f3 : Nat) :
    (newLightSwitchFSM.SendEvent (f1 + 1) SwitchOff ()).outcome = .ok ∧
    ((newLightSwitchFSM.SendEvent (f1 + 1) SwitchOff ()).machine.SendEvent
      (f2 + 1) SwitchOn ()).outcome = .ok ∧
    (((newLightSwitchFSM.SendEvent (f1 + 1) SwitchOff ()).machine.SendEvent
      (f2 + 1) SwitchOn ()).machine.SendEvent (f3 + 1) SwitchOff ()).outcome
        = .ok ∧
    (((newLightSwitchFSM.SendEvent (f1 + 1) SwitchOff ()).machine.SendEvent
      (f2 + 1) SwitchOn ()).machine.SendEvent (f3 + 1) SwitchOff
        ()).machine.Current = Off ∧
    (((newLightSwitchFSM.SendEvent (f1 + 1) SwitchOff ()).machine.SendEvent
      (f2 + 1) SwitchOn ()).machine.SendEvent (f3 + 1) SwitchOff
        ()).machine.Previous = On := by
  have h1 : newLightSwitchFSM.SendEvent (f1 + 1) SwitchOff () =
      ⟨.ok, newLightSwitchFSM.commitTransition Off, [Off], [(Default, Off)]⟩ :=
    sendEvent_step_ok f1 () rfl rfl rfl
  have h2 : (newLightSwitchFSM.commitTransition Off).SendEvent (f2 + 1)
      SwitchOn () =
      ⟨.ok, (newLightSwitchFSM.commitTransition Off).commitTransition On,
        [On], [(Off, On)]⟩ :=
    sendEvent_step_ok f2 () rfl rfl rfl
  have h3 : ((newLightSwitchFSM.commitTransition Off).commitTransition
      On).SendEvent (f3 + 1) SwitchOff () =
      ⟨.ok, ((newLightSwitchFSM.commitTransition Off).commitTransition
        On).commitTransition Off, [Off], [(On, Off)]⟩ :=
    sendEvent_step_ok f3 () rfl rfl rfl
  simp only [h1, h2, h3]
  exact ⟨trivial, trivial, trivial, rfl, rfl⟩

/-- A machine that cascades: `Default` routes `"Start"` to `"A"`, whose
action returns `"Advance"`, which `"A"` routes to `"B"`, whose action
returns `NoOp`. -/
def cascadeFSM : StateMachine Unit :=
  { Previous := Default
    Current := Default
    States :=
      [ (Default, { Action := none, Events := some [("Start", "A")] })
      , ("A", { Action := some (fun _ => "Advance")
              , Events := some [("Advance", "B")] })
      , ("B", { Action := some (fun _ => NoOp), Events := some [] }) ] }

/-- A machine that never terminates: state `"A"`, its own fixed point under
transition, routes `"Go"` to itself and its action returns `"Go"` again. -/
def divergingFSM : StateMachine Unit :=
  { Previous := "A"
    Current := "A"
    States :=
      [ ("A", { Action := some (fun _ => "Go")
              , Events := some [("Go", "A")] }) ] }

/-- A machine whose `Default` state has a transition-table entry for the
`NoOp` event itself, routing it to `"B"` whose action returns `NoOp`. -/
def noopKeyFSM : StateMachine Unit :=
  { Previous := Default
    Current := Default
    States :=
      [ (Default, { Action := none, Events := some [(NoOp, "B")] })
      , ("B", { Action := some (fun _ => NoOp), Events := some [] }) ] }

/-- C4: if the event resolves to `n1`, whose action returns the non-`NoOp`
event `e2`, which resolves (from `n1`) to `n2`, whose action returns `NoOp`,
then a single `SendEvent` call succeeds with `Current = n2` (the final
destination, not the intermediate state), `Previous = n1` (the intermediate
state), and each action along the chain invoked exactly once, in order. -/
theorem cascade_atomicity {Ctx : Type} (s : StateMachine Ctx)
    (eventCtx : Ctx) (event e2 : EventType) (n1 n2 : StateType)
    (a1 a2 : Ctx → EventType)
    (h1 : s.getNextState event = .ok n1)
    (h2 : stateAction s.States n1 = some a1)
    (h3 : a1 eventCtx = e2)
    (h4 : e2 ≠ NoOp)
    (h5 : (s.commitTransition n1).getNextState e2 = .ok n2)
    (h6 : stateAction s.States n2 = some a2)
    (h7 : a2 eventCtx = NoOp) :
    ∀ fuel : Nat,
      (s.SendEvent (fuel + 2) event eventCtx).outcome = .ok ∧
      (s.SendEvent (fuel + 2) event eventCtx).machine.Current = n2 ∧
      (s.SendEvent (fuel + 2) event eventCtx).machine.Previous = n1 ∧
      (s.SendEvent (fuel + 2) event eventCtx).invoked = [n1, n2] := by
  intro fuel
  have hne : a1 eventCtx ≠ NoOp := by rw [h3]; exact h4
  have hc := sendEvent_step_cascade (fuel + 1) eventCtx h1 h2 hne
  have hin : (s.commitTransition n1).SendEvent (fuel + 1) (a1 eventCtx)
      eventCtx =
      ⟨.ok, (s.commitTransition n1).commitTransition n2, [n2], [(n1, n2)]⟩ := by
    rw [h3]
    exact sendEvent_step_ok fuel eventCtx h5 h6 h7
  rw [show fuel + 2 = fuel + 1 + 1 from rfl, hc, hin]
  exact ⟨rfl, rfl, rfl, rfl⟩

/-- Witness for C4: on `cascadeFSM`, one submission of `"Start"` traverses
`"A"` and lands in `"B"`, invoking each action once. -/
theorem cascade_atomicity_witness :
    (cascadeFSM.SendEvent 2 "Start" ()).outcome = .ok ∧
    (cascadeFSM.SendEvent 2 "Start" ()).machine.Current = "B" ∧
    (cascadeFSM.SendEvent 2 "Start" ()).machine.Previous = "A" ∧
    (cascadeFSM.SendEvent 2 "Start" ()).invoked = ["A", "B"] :=
  cascade_atomicity cascadeFSM () "Start" "Advance" "A" "B"
    (fun _ => "Advance") (fun _ => NoOp) rfl rfl rfl (by decide) rfl rfl rfl 0

/-- `committedChain c l` says the committed-transition pairs `l` form a
chain starting at `c`: each recorded `Previous` equals the state that was
`Current` immediately before that transition. -/
def committedChain (c : StateType) : List (StateType × StateType) → Prop
  | [] => True
  | (p, n) :: rest => p = c ∧ committedChain n rest

/-- C5: in every `SendEvent` call, each committed transition (recorded as a
`(Previous, Current)` pair at the moment lines 122-123 run, before the
destination's action) has `Previous` equal to the state that was `Current`
immediately before it; and the machine afterwards carries exactly the pair
written by the last committed transition (or is unchanged if none). -/
theorem previous_tracks_current {Ctx : Type} :
    ∀ (fuel : Nat) (s : StateMachine Ctx) (event : EventType) (eventCtx : Ctx),
      committedChain s.Current (s.SendEvent fuel event eventCtx).committed ∧
      ((s.SendEvent fuel event eventCtx).machine.Previous,
        (s.SendEvent fuel event eventCtx).machine.Current) =
        (s.SendEvent fuel event eventCtx).committed.getLastD
          (s.Previous, s.Current) := by
  intro fuel
  induction fuel with
  | zero => intro s event eventCtx; exact ⟨trivial, rfl⟩
  | succ f ih =>
    intro s event eventCtx
    cases hg : s.getNextState event with
    | error er =>
      rw [sendEvent_step_rejected f eventCtx hg]
      exact ⟨trivial, rfl⟩
    | ok n =>
      cases ha : stateAction s.States n with
      | none =>
        rw [sendEvent_step_nilAction f eventCtx hg ha]
        exact ⟨⟨rfl, trivial⟩, rfl⟩
      | some act =>
        by_cases hno : act eventCtx = NoOp
        · rw [sendEvent_step_ok f eventCtx hg ha hno]
          exact ⟨⟨rfl, trivial⟩, rfl⟩
        · rw [sendEvent_step_cascade f eventCtx hg ha hno]
          obtain ⟨ihc, ihp⟩ := ih (s.commitTransition n) (act eventCtx) eventCtx
          refine ⟨⟨rfl, ihc⟩, ?_⟩
          rw [List.getLastD_cons]
          exact ihp

/-- C8: `SendEvent` never mutates the state collection: on every outcome the
`States` field after the call equals the `States` field before it. -/
theorem sendEvent_preserves_states {Ctx : Type} :
    ∀ (fuel : Nat) (s : StateMachine Ctx) (event : EventType) (eventCtx : Ctx),
      (s.SendEvent fuel event eventCtx).machine.States = s.States := by
  intro fuel
  induction fuel with
  | zero => intro s event eventCtx; rfl
  | succ f ih =>
    intro s event eventCtx
    cases hg : s.getNextState event with
    | error er => rw [sendEvent_step_rejected f eventCtx hg]
    | ok n =>
      cases ha : stateAction s.States n with
      | none =>
        rw [sendEvent_step_nilAction f eventCtx hg ha]
        exact rfl
      | some act =>
        by_cases hno : act eventCtx = NoOp
        · rw [sendEvent_step_ok f eventCtx hg ha hno]
          exact rfl
        · rw [sendEvent_step_cascade f eventCtx hg ha hno]
          exact ih (s.commitTransition n) (act eventCtx) eventCtx

/-- C6: a `SendEvent` call terminates only through `NoOp` or rejection.  If
an invariant `I` holds of the initial machine/event pair and every `I`-pair
resolves to a destination whose action returns a non-`NoOp` event while
preserving `I`, the call exhausts any amount of fuel (the Go loop never
terminates); while a resolution to a destination whose action returns `NoOp`
terminates after exactly one transition and one action invocation. -/
theorem termination_character {Ctx : Type} (eventCtx : Ctx)
    (I : StateMachine Ctx → EventType → Prop)
    (s1 : StateMachine Ctx) (e1 : EventType)
    (hI : I s1 e1)
    (hstep : ∀ s e, I s e → ∃ n a, s.getNextState e = .ok n ∧
      stateAction s.States n = some a ∧ a eventCtx ≠ NoOp ∧
      I (s.commitTransition n) (a eventCtx))
    (s2 : StateMachine Ctx) (e2 : EventType) (n2 : StateType)
    (a2 : Ctx → EventType)
    (h1 : s2.getNextState e2 = .ok n2)
    (h2 : stateAction s2.States n2 = some a2)
    (h3 : a2 eventCtx = NoOp) :
    (∀ fuel, (s1.SendEvent fuel e1 eventCtx).outcome = .outOfFuel) ∧
    (∀ fuel, s2.SendEvent (fuel + 1) e2 eventCtx =
      ⟨.ok, s2.commitTransition n2, [n2], [(s2.Current, n2)]⟩) := by
  constructor
  · have key : ∀ (fuel : Nat) (s : StateMachine Ctx) (e : EventType),
        I s e → (s.SendEvent fuel e eventCtx).outcome = .outOfFuel := by
      intro fuel
      induction fuel with
      | zero => intro s e _; rfl
      | succ f ih =>
        intro s e hse
        obtain ⟨n, a, hg, ha, hno, hI'⟩ := hstep s e hse
        rw [sendEvent_step_cascade f eventCtx hg ha hno]
        exact ih (s.commitTransition n) (a eventCtx) hI'
    exact fun fuel => key fuel s1 e1 hI
  · intro fuel
    exact sendEvent_step_ok fuel eventCtx h1 h2 h3

/-- Witness for C6: `divergingFSM` exhausts fuel 9 on `"Go"` (and, by the
theorem, any fuel), while the light-switch machine's first `SwitchOff`
terminates after exactly one transition and one action invocation. -/
theorem termination_character_witness :
    (divergingFSM.SendEvent 9 "Go" ()).outcome = .outOfFuel ∧
    newLightSwitchFSM.SendEvent 1 SwitchOff () =
      ⟨.ok, newLightSwitchFSM.commitTransition Off, [Off], [(Default, Off)]⟩ := by
  have h := termination_character ()
    (fun s e => s = divergingFSM ∧ e = "Go") divergingFSM "Go" ⟨rfl, rfl⟩
    (by
      rintro s e ⟨rfl, rfl⟩
      exact ⟨"A", fun _ => "Go", rfl, rfl, by decide, rfl, rfl⟩)
    newLightSwitchFSM SwitchOff Off OffActionExecute rfl rfl rfl
  exact ⟨h.1 9, h.2 0⟩

/-- C10: the `NoOp` sentinel is special only as an action's return value.
Submitting `NoOp` externally is resolved against the current state's
transition table like any other event: rejected when there is no entry, and
otherwise the machine commits the transition to the table's destination and
runs that destination's action. -/
theorem noop_event_is_ordinary {Ctx : Type} (s : StateMachine Ctx)
    (eventCtx : Ctx) (fuel : Nat) :
    (∀ er, s.getNextState NoOp = .error er →
      s.SendEvent (fuel + 1) NoOp eventCtx = ⟨.rejected, s, [], []⟩) ∧
    (∀ n a, s.getNextState NoOp = .ok n →
      stateAction s.States n = some a →
      (s.SendEvent (fuel + 1) NoOp eventCtx).committed.head? =
        some (s.Current, n) ∧
      (s.SendEvent (fuel + 1) NoOp eventCtx).invoked.head? = some n) := by
  constructor
  · intro er h
    exact sendEvent_step_rejected fuel eventCtx h
  · intro n a hg ha
    by_cases hno : a eventCtx = NoOp
    · rw [sendEvent_step_ok fuel eventCtx hg ha hno]
      exact ⟨rfl, rfl⟩
    · rw [sendEvent_step_cascade fuel eventCtx hg ha hno]
      exact ⟨rfl, rfl⟩

/-- Witness for C10: the light-switch machine rejects an external `NoOp`
(its default state has no entry for it), while `noopKeyFSM`, whose default
state does map `NoOp`, transitions to `"B"` and runs `"B"`'s action. -/
theorem noop_event_is_ordinary_witness :
    newLightSwitchFSM.SendEvent 1 NoOp () =
      ⟨.rejected, newLightSwitchFSM, [], []⟩ ∧
    (noopKeyFSM.SendEvent 1 NoOp ()).committed.head? =
      some (Default, "B") ∧
    (noopKeyFSM.SendEvent 1 NoOp ()).invoked.head? = some "B" :=
  ⟨(noop_event_is_ordinary newLightSwitchFSM () 0).1 () rfl,
    (noop_event_is_ordinary noopKeyFSM () 0).2 "B" (fun _ => NoOp) rfl rfl⟩

end Dinghy
